import Mathlib

/-!
Verification of the math-question generator and spaced-repetition scheduler
of the alexa-skill-math repository (src/lambda/alexa/math_questions.py,
src/lambda/alexa/srs.py, src/lambda/alexa/models.py).

Python randomness is derandomized: every call of random.randint(lo, hi)
is modelled as `randint lo hi r` for an arbitrary tape value `r : Nat`,
and every call of random.choice(l) as `pychoice l d r`.  For lo ≤ hi and
nonempty l these range over exactly the values the Python calls can
return.  Strings are modelled at the character-list level: `splitChars`
models str.split("_"), `pyIntOfChars` models int(), and `intReprChars`
models the decimal rendering performed by Python f-strings.
-/

/-! ### Decimal rendering (Python str/f-string on int) and int() parsing -/

/-- Decimal digits of `n`, most significant first; `fuel` bounds recursion
and any `fuel > n` is enough. Models the decimal rendering of a
non-negative integer by a Python f-string. -/
def decDigits (fuel n : Nat) : List Char :=
  match fuel with
  | 0 => []
  | f + 1 => if n < 10 then [Nat.digitChar n]
             else decDigits f (n / 10) ++ [Nat.digitChar (n % 10)]

/-- Decimal character list of a natural number. -/
def natReprChars (n : Nat) : List Char := decDigits (n + 1) n

/-- Decimal character list of an integer, with a leading minus sign for
negative values: models Python str(int). -/
def intReprChars (i : Int) : List Char :=
  if i < 0 then '-' :: natReprChars i.natAbs else natReprChars i.toNat

/-- Parse a run of decimal digits, accumulator style. -/
def parseDigitsAux (acc : Nat) : List Char → Option Nat
  | [] => some acc
  | c :: cs => if c.isDigit then parseDigitsAux (acc * 10 + (c.toNat - 48)) cs else none

/-- Parse a nonempty run of decimal digits. -/
def parseDigits : List Char → Option Nat
  | [] => none
  | cs => parseDigitsAux 0 cs

/-- Model of Python int(str): optional surrounding whitespace, an optional
sign, then at least one decimal digit. -/
def pyIntOfChars (s : List Char) : Option Int :=
  let cs := ((s.dropWhile Char.isWhitespace).reverse.dropWhile Char.isWhitespace).reverse
  match cs with
  | [] => none
  | c :: rest =>
    if c = '-' then (parseDigits rest).map (fun n => -(n : Int))
    else if c = '+' then (parseDigits rest).map (fun n => (n : Int))
    else (parseDigits cs).map (fun n => (n : Int))

/-! ### Splitting on underscores (Python str.split("_")) -/

/-- Model of Python str.split("_") at the character-list level: the first
field is extended with each non-separator character, a separator starts a
new empty field. The result is always nonempty. -/
def splitChars : List Char → List (List Char)
  | [] => [[]]
  | c :: cs =>
    if c = '_' then [] :: splitChars cs
    else (c :: (splitChars cs).headD []) :: (splitChars cs).tail

/-! ### math_questions.py: operations, grade configurations, questions -/

/-- The four supported math operations (class Operation). -/
inductive Operation where
  | addition
  | subtraction
  | multiplication
  | division
deriving DecidableEq, Repr

/-- Operation.value: the enum string value used in question ids. -/
def Operation.value : Operation → String
  | .addition => "add"
  | .subtraction => "sub"
  | .multiplication => "mul"
  | .division => "div"

/-- OPERATION_WORDS_GERMAN: speech-friendly German operation words. -/
def OPERATION_WORDS_GERMAN : Operation → String
  | .addition => "plus"
  | .subtraction => "minus"
  | .multiplication => "mal"
  | .division => "geteilt durch"

/-- DifficultyConfig: configuration for a specific grade level. -/
structure DifficultyConfig where
  grade : Int
  operations : List Operation
  number_range : Int × Int
  multiplication_tables : Option (List Int) := none
deriving DecidableEq, Repr

/-- GRADE_CONFIGS: difficulty configurations per grade level (a partial
map on grades, `none` for unsupported grades). -/
def GRADE_CONFIGS (grade : Int) : Option DifficultyConfig :=
  if grade = 1 then
    some { grade := 1, operations := [.addition], number_range := (1, 10) }
  else if grade = 2 then
    some { grade := 2, operations := [.addition, .subtraction, .multiplication],
           number_range := (0, 100), multiplication_tables := some [2, 5, 10] }
  else if grade = 3 then
    some { grade := 3,
           operations := [.addition, .subtraction, .multiplication, .division],
           number_range := (0, 100),
           multiplication_tables := some [1, 2, 3, 4, 5, 6, 7, 8, 9, 10] }
  else if grade = 4 then
    some { grade := 4,
           operations := [.addition, .subtraction, .multiplication, .division],
           number_range := (0, 1000),
           multiplication_tables := some [1, 2, 3, 4, 5, 6, 7, 8, 9, 10, 11, 12] }
  else none

/-- MathQuestion: a single math question. -/
structure MathQuestion where
  question_id : String
  operand1 : Int
  operand2 : Int
  operation : Operation
  correct_answer : Int
  question_text_german : String
deriving DecidableEq, Repr

/-- generate_question_id: the id `"{operation.value}_{operand1}_{operand2}"`. -/
def generate_question_id (operation : Operation) (operand1 operand2 : Int) : String :=
  ⟨(Operation.value operation).data ++ '_' :: intReprChars operand1 ++
    '_' :: intReprChars operand2⟩

/-- Derandomized random.randint(lo, hi): for lo ≤ hi the value
`lo + r % (hi - lo + 1)` ranges over exactly [lo, hi] as the tape value
`r` varies. -/
def randint (lo hi : Int) (r : Nat) : Int :=
  lo + (r : Int) % (hi - lo + 1)

/-- Derandomized random.choice(l): picks the entry at index `r % l.length`
(`d` is a dummy default, never used for the nonempty lists of the code). -/
def pychoice {α : Type} (l : List α) (d : α) (r : Nat) : α :=
  l.getD (r % l.length) d

/-- Python `tables or default`: None and the empty list are falsy. -/
def pyOr (o : Option (List Int)) (default : List Int) : List Int :=
  match o with
  | none => default
  | some l => if l = [] then default else l

/-- Common final step of each generator: the question record with id
`"{op}_{o1}_{o2}"` and text `"Was ist {o1} {word} {o2}?"`. -/
def mkQuestion (op : Operation) (o1 o2 answer : Int) : MathQuestion :=
  { question_id := generate_question_id op o1 o2
    operand1 := o1
    operand2 := o2
    operation := op
    correct_answer := answer
    question_text_german :=
      "Was ist " ++ (⟨intReprChars o1⟩ : String) ++ " " ++
        OPERATION_WORDS_GERMAN op ++ " " ++ (⟨intReprChars o2⟩ : String) ++ "?" }

/-- _generate_addition: operand1 ∈ [min, max], operand2 ∈
[min, max(min, max - operand1)], answer = operand1 + operand2. -/
def _generate_addition (config : DifficultyConfig) (r1 r2 : Nat) : MathQuestion :=
  let min_num := config.number_range.1
  let max_num := config.number_range.2
  let operand1 := randint min_num max_num r1
  let max_operand2 := max min_num (max_num - operand1)
  let operand2 := randint min_num max_operand2 r2
  mkQuestion .addition operand1 operand2 (operand1 + operand2)

/-- _generate_subtraction: operand1 ∈ [min, max], operand2 ∈ [min, operand1],
answer = operand1 - operand2. -/
def _generate_subtraction (config : DifficultyConfig) (r1 r2 : Nat) : MathQuestion :=
  let min_num := config.number_range.1
  let max_num := config.number_range.2
  let operand1 := randint min_num max_num r1
  let operand2 := randint min_num operand1 r2
  mkQuestion .subtraction operand1 operand2 (operand1 - operand2)

/-- _generate_multiplication: one operand from the times tables (default
[2, 5, 10]), one from [1, 10], randomly order-swapped. -/
def _generate_multiplication (config : DifficultyConfig) (r1 r2 r3 : Nat) : MathQuestion :=
  let tables := pyOr config.multiplication_tables [2, 5, 10]
  let operand1 := pychoice tables 0 r1
  let operand2 := randint 1 10 r2
  let p := if pychoice [true, false] true r3 then (operand2, operand1)
           else (operand1, operand2)
  mkQuestion .multiplication p.1 p.2 (p.1 * p.2)

/-- _generate_division: divisor from the tables (default [1..10]), quotient
∈ [1, 10], dividend = divisor * quotient; answer is the quotient. -/
def _generate_division (config : DifficultyConfig) (r1 r2 : Nat) : MathQuestion :=
  let tables := pyOr config.multiplication_tables [1, 2, 3, 4, 5, 6, 7, 8, 9, 10]
  let divisor := pychoice tables 0 r1
  let quotient := randint 1 10 r2
  let dividend := divisor * quotient
  mkQuestion .division dividend divisor quotient

/-- One tape of derandomized draws for a single generate_question call:
`rop` drives the operation choice, `r1 r2 r3` the per-operation draws. -/
structure RandTape where
  rop : Nat
  r1 : Nat
  r2 : Nat
  r3 : Nat
deriving DecidableEq, Repr

/-- _OPERATION_GENERATORS: maps an operation to its generator. -/
def _OPERATION_GENERATORS (op : Operation) (config : DifficultyConfig)
    (t : RandTape) : MathQuestion :=
  match op with
  | .addition => _generate_addition config t.r1 t.r2
  | .subtraction => _generate_subtraction config t.r1 t.r2
  | .multiplication => _generate_multiplication config t.r1 t.r2 t.r3
  | .division => _generate_division config t.r1 t.r2

/-- generate_question: validates the grade, validates or randomly chooses
the operation, and dispatches to the generator. ValueError is modelled as
`Except.error`. -/
def generate_question (grade : Int) (operation : Option Operation)
    (t : RandTape) : Except String MathQuestion :=
  match GRADE_CONFIGS grade with
  | none => .error ("Unsupported grade")
  | some config =>
    match operation with
    | none =>
      .ok (_OPERATION_GENERATORS (pychoice config.operations .addition t.rop) config t)
    | some op =>
      if op ∈ config.operations then .ok (_OPERATION_GENERATORS op config t)
      else .error ("Operation is not available for grade")

/-! ### models.py: QuestionStats -/

/-- QuestionStats: per-question statistics for spaced repetition.
`last_asked` is an abstract timestamp (`none` = never asked); datetime.now()
is modelled by an explicit `now` argument to record_answer. -/
structure QuestionStats where
  question_id : String
  correct_count : Nat := 0
  incorrect_count : Nat := 0
  last_asked : Option Nat := none
  box : Nat := 1
deriving DecidableEq, Repr

/-- total_attempts = correct_count + incorrect_count. -/
def QuestionStats.total_attempts (s : QuestionStats) : Nat :=
  s.correct_count + s.incorrect_count

/-! ### srs.py: the spaced-repetition scheduler -/

/-- MAX_BOX: highest Leitner box. -/
def MAX_BOX : Nat := 5

/-- MIN_BOX: lowest Leitner box. -/
def MIN_BOX : Nat := 1

/-- State of a SpacedRepetition instance. The Python stats dict is an
insertion-ordered map, modelled as an association list: updates keep the
entry position, new keys are appended. -/
structure SpacedRepetition where
  _stats : List (String × QuestionStats)
  _grade : Int
  _session_asked : List String
  _recent_questions : List String
  _max_recent : Nat
deriving DecidableEq, Repr

/-- SpacedRepetition.__init__ with a given stats map and grade. -/
def SpacedRepetition.init (question_stats : List (String × QuestionStats))
    (grade : Int) : SpacedRepetition :=
  { _stats := question_stats, _grade := grade, _session_asked := [],
    _recent_questions := [], _max_recent := 5 }

/-- Dict lookup `self._stats.get(question_id)` on the association list. -/
def statsGet? (l : List (String × QuestionStats)) (k : String) : Option QuestionStats :=
  match l with
  | [] => none
  | (k1, v) :: rest => if k1 = k then some v else statsGet? rest k

/-- Dict store `self._stats[k] = v`: replaces in place, or appends a new
key at the end (Python dicts keep insertion order). -/
def statsSet (l : List (String × QuestionStats)) (k : String) (v : QuestionStats) :
    List (String × QuestionStats) :=
  match l with
  | [] => [(k, v)]
  | (k1, v1) :: rest => if k1 = k then (k, v) :: rest else (k1, v1) :: statsSet rest k v

/-- record_answer: lazily creates the stats record, applies the Leitner
box transition, stamps last_asked, and maintains the session set and the
bounded recency list. -/
def record_answer (s : SpacedRepetition) (question_id : String) (correct : Bool)
    (now : Nat) : SpacedRepetition :=
  let st := (statsGet? s._stats question_id).getD { question_id := question_id }
  let st1 :=
    if correct then
      { st with correct_count := st.correct_count + 1,
                box := min MAX_BOX (st.box + 1), last_asked := some now }
    else
      { st with incorrect_count := st.incorrect_count + 1,
                box := MIN_BOX, last_asked := some now }
  let recent := s._recent_questions ++ [question_id]
  { s with
    _stats := statsSet s._stats question_id st1
    _session_asked :=
      if question_id ∈ s._session_asked then s._session_asked
      else s._session_asked ++ [question_id]
    _recent_questions := if s._max_recent < recent.length then recent.drop 1 else recent }

/-- The op_map of _reconstruct_question: operation code → Operation. -/
def op_map (cs : List Char) : Option Operation :=
  if cs = "add".data then some .addition
  else if cs = "sub".data then some .subtraction
  else if cs = "mul".data then some .multiplication
  else if cs = "div".data then some .division
  else none

/-- The answer recomputation of _reconstruct_question (division is Python
floor division, guarded against a zero divisor). -/
def reconAnswer (op : Operation) (operand1 operand2 : Int) : Int :=
  match op with
  | .addition => operand1 + operand2
  | .subtraction => operand1 - operand2
  | .multiplication => operand1 * operand2
  | .division => if operand2 ≠ 0 then Int.fdiv operand1 operand2 else 0

/-- _reconstruct_question: parse `"{op}_{operand1}_{operand2}"` back into a
MathQuestion; any parse failure yields none. -/
def _reconstruct_question (question_id : String) : Option MathQuestion :=
  match splitChars question_id.data with
  | [op_str, op1_str, op2_str] =>
    match pyIntOfChars op1_str, pyIntOfChars op2_str with
    | some operand1, some operand2 =>
      match op_map op_str with
      | some operation =>
        some { question_id := question_id
               operand1 := operand1
               operand2 := operand2
               operation := operation
               correct_answer := reconAnswer operation operand1 operand2
               question_text_german :=
                 "Was ist " ++ (⟨intReprChars operand1⟩ : String) ++ " " ++
                   OPERATION_WORDS_GERMAN operation ++ " " ++
                   (⟨intReprChars operand2⟩ : String) ++ "?" }
      | none => none
    | _, _ => none
  | _ => none

/-- The retry loop of _generate_new_question: `fuel` remaining iterations,
`i` the index of the next tape entry to consume; the `fuel = 0` case is the
final unconditional generate_question call after the loop. -/
def genNewAux (s : SpacedRepetition) (tape : Nat → RandTape) :
    Nat → Nat → Except String MathQuestion
  | 0, i => generate_question s._grade none (tape i)
  | fuel + 1, i =>
    match generate_question s._grade none (tape i) with
    | .error e => .error e
    | .ok question =>
      if question.question_id ∈ s._recent_questions then genNewAux s tape fuel (i + 1)
      else
        match statsGet? s._stats question.question_id with
        | none => .ok question
        | some stats =>
          if 3 ≤ stats.box then .ok question else genNewAux s tape fuel (i + 1)

/-- _generate_new_question: up to max_attempts = 20 filtered attempts,
then one unconditional fallback generation. -/
def _generate_new_question (s : SpacedRepetition) (tape : Nat → RandTape) :
    Except String MathQuestion :=
  genNewAux s tape 20 0

/-- parts[0] of question_id.split("_"): the operation-code field. -/
def firstField (question_id : String) : String :=
  ⟨(splitChars question_id.data).headD []⟩

/-- The defaultdict grouping of get_weak_areas/get_strong_areas: operation
codes of the entries passing `pred`, in first-encounter order. -/
def groupOps (l : List (String × QuestionStats)) (pred : QuestionStats → Bool) :
    List String :=
  l.foldl
    (fun ks p =>
      if pred p.2 then (if firstField p.1 ∈ ks then ks else ks ++ [firstField p.1])
      else ks)
    []

/-- Total correct and total attempts of one operation group. -/
def opTotals (l : List (String × QuestionStats)) (pred : QuestionStats → Bool)
    (k : String) : Nat × Nat :=
  l.foldl
    (fun acc p =>
      if pred p.2 ∧ firstField p.1 = k then
        (acc.1 + p.2.correct_count, acc.2 + p.2.total_attempts)
      else acc)
    (0, 0)

/-- op_accuracy: aggregate accuracy per operation code, in group order.
The float division of Python is modelled exactly by rational division. -/
def opAccuracy (l : List (String × QuestionStats)) (pred : QuestionStats → Bool) :
    List (String × ℚ) :=
  (groupOps l pred).filterMap
    (fun k =>
      let t := opTotals l pred k
      if 0 < t.2 then some (k, (t.1 : ℚ) / (t.2 : ℚ)) else none)

/-- op_names of get_weak_areas. -/
def weakName (op : String) : String :=
  if op = "add" then ("Addition")
  else if op = "sub" then ("Subtraktion")
  else if op = "mul" then ("Multiplikation")
  else if op = "div" then ("Division")
  else op

/-- op_names of get_strong_areas. -/
def strongName (op : String) : String :=
  if op = "add" then ("Plus-Aufgaben")
  else if op = "sub" then ("Minus-Aufgaben")
  else if op = "mul" then ("Mal-Aufgaben")
  else if op = "div" then ("Geteilt-Aufgaben")
  else op

/-- The sorted-and-filtered pairs of get_weak_areas: entries with at least
one attempt, sorted ascending by accuracy (Python sorted is stable, as is
mergeSort), keeping aggregate accuracy < 0.7. -/
def weakPairs (s : SpacedRepetition) : List (String × ℚ) :=
  ((opAccuracy s._stats (fun st => st.total_attempts != 0)).mergeSort
      (fun a b => decide (a.2 ≤ b.2))).filter
    (fun p => decide (p.2 < 7 / 10))

/-- get_weak_areas: readable names of the weak pairs, weakest first. -/
def get_weak_areas (s : SpacedRepetition) : List String :=
  (weakPairs s).map (fun p => weakName p.1)

/-- The sorted-and-filtered pairs of get_strong_areas: entries with at
least three attempts, sorted descending by accuracy, keeping aggregate
accuracy ≥ 0.8. -/
def strongPairs (s : SpacedRepetition) : List (String × ℚ) :=
  ((opAccuracy s._stats (fun st => 3 ≤ st.total_attempts)).mergeSort
      (fun a b => decide (b.2 ≤ a.2))).filter
    (fun p => decide (4 / 5 ≤ p.2))

/-- get_strong_areas: readable names of the strong pairs, strongest first. -/
def get_strong_areas (s : SpacedRepetition) : List String :=
  (strongPairs s).map (fun p => strongName p.1)

/-! ### Auxiliary definitions used in statements and concrete checks -/

/-- The acceptance condition of the retry loop of _generate_new_question:
the candidate is not in the recency list, and is either unseen or sits in
box ≥ 3. -/
def acceptsNew (s : SpacedRepetition) (q : MathQuestion) : Prop :=
  q.question_id ∉ s._recent_questions ∧
    (statsGet? s._stats q.question_id = none ∨
      ∃ st, statsGet? s._stats q.question_id = some st ∧ 3 ≤ st.box)

/-- A scheduler state whose recency list already contains add_1_1. -/
def sC3state : SpacedRepetition :=
  { _stats := [], _grade := 1, _session_asked := [],
    _recent_questions := ["add_1_1"], _max_recent := 5 }

/-- A tape on which the first 20 generator calls produce add_1_1 and the
next call produces add_2_1. -/
def sC3tape : Nat → RandTape :=
  fun i => if i < 20 then ⟨0, 0, 0, 0⟩ else ⟨0, 1, 0, 0⟩

/-- Run a sequence of record_answer calls (all stamped `now`). -/
def runAnswers (s : SpacedRepetition) (calls : List (String × Bool)) (now : Nat) :
    SpacedRepetition :=
  calls.foldl (fun acc c => record_answer acc c.1 c.2 now) s

/-- The suffix of the last `n` entries of a list. -/
def lastN {α : Type} (n : Nat) (l : List α) : List α := l.drop (l.length - n)

/-- Whether an Except value is a success. -/
def exceptIsOk {ε α : Type} : Except ε α → Bool
  | .ok _ => true
  | .error _ => false

/-- A stats map with one addition fact at aggregate accuracy exactly 7/10
and one multiplication fact at aggregate accuracy exactly 4/5, both with
at least 3 attempts. -/
def sC8state : SpacedRepetition :=
  { _stats := [("add_1_1", { question_id := "add_1_1", correct_count := 7,
                             incorrect_count := 3, last_asked := none, box := 1 }),
               ("mul_2_2", { question_id := "mul_2_2", correct_count := 4,
                             incorrect_count := 1, last_asked := none, box := 1 })],
    _grade := 1, _session_asked := [], _recent_questions := [], _max_recent := 5 }

/-! ### Properties of the decimal codec and splitting -/

theorem digitChar_isDigit {n : Nat} (h : n < 10) : (Nat.digitChar n).isDigit = true := by
  interval_cases n <;> decide

theorem digitChar_toNat {n : Nat} (h : n < 10) : (Nat.digitChar n).toNat - 48 = n := by
  interval_cases n <;> decide

theorem mem_decDigits_isDigit : ∀ (fuel n : Nat), ∀ c ∈ decDigits fuel n, c.isDigit = true := by
  intro fuel
  induction fuel with
  | zero => intro n c hc; simp [decDigits] at hc
  | succ f ih =>
    intro n c hc
    by_cases h : n < 10
    · simp [decDigits, h] at hc
      subst hc; exact digitChar_isDigit h
    · simp [decDigits, h] at hc
      rcases hc with hc | hc
      · exact ih _ _ hc
      · subst hc; exact digitChar_isDigit (Nat.mod_lt _ (by omega))

theorem decDigits_ne_nil {fuel n : Nat} (h : 0 < fuel) : decDigits fuel n ≠ [] := by
  match fuel with
  | f + 1 =>
    by_cases h10 : n < 10
    · simp [decDigits, h10]
    · simp [decDigits, h10]

theorem parseDigitsAux_append (acc : Nat) (xs ys : List Char) :
    parseDigitsAux acc (xs ++ ys) =
      match parseDigitsAux acc xs with
      | some v => parseDigitsAux v ys
      | none => none := by
  induction xs generalizing acc with
  | nil => simp [parseDigitsAux]
  | cons c cs ih =>
    by_cases hc : c.isDigit
    · simp [parseDigitsAux, hc, ih]
    · simp [parseDigitsAux, hc]

theorem parseDigitsAux_decDigits :
    ∀ (fuel n acc : Nat), n < fuel →
      parseDigitsAux acc (decDigits fuel n) = some (acc * 10 ^ (decDigits fuel n).length + n) := by
  intro fuel
  induction fuel with
  | zero => intro n acc h; omega
  | succ f ih =>
    intro n acc h
    by_cases h10 : n < 10
    · simp [decDigits, h10, parseDigitsAux, digitChar_isDigit h10, digitChar_toNat h10]
    · have hrec : n / 10 < f := by omega
      have hlen : (decDigits (f + 1) n).length = (decDigits f (n / 10)).length + 1 := by
        simp [decDigits, h10]
      rw [show decDigits (f + 1) n = decDigits f (n / 10) ++ [Nat.digitChar (n % 10)] by
        simp [decDigits, h10]]
      rw [parseDigitsAux_append, ih (n / 10) acc hrec]
      have hm : n % 10 < 10 := Nat.mod_lt _ (by omega)
      simp only [parseDigitsAux, digitChar_isDigit hm, if_pos, digitChar_toNat hm,
        List.length_append, List.length_cons, List.length_nil]
      congr 1
      have : (acc * 10 ^ (decDigits f (n / 10)).length + n / 10) * 10 + n % 10 =
          acc * (10 ^ (decDigits f (n / 10)).length * 10) + (n / 10 * 10 + n % 10) := by ring
      rw [this, Nat.div_add_mod']
      rw [show (decDigits f (n / 10)).length + (0 + 1) = (decDigits f (n / 10)).length + 1 by
        omega, pow_succ]

theorem parseDigits_natReprChars (n : Nat) : parseDigits (natReprChars n) = some n := by
  have hne : natReprChars n ≠ [] := decDigits_ne_nil (by omega)
  have h := parseDigitsAux_decDigits (n + 1) n 0 (by omega)
  unfold natReprChars
  match hl : decDigits (n + 1) n with
  | [] => exact absurd hl hne
  | c :: cs =>
    rw [hl] at h
    simpa [parseDigits] using h

theorem digitChar_props {n : Nat} (h : n < 10) :
    (Nat.digitChar n).isWhitespace = false ∧ Nat.digitChar n ≠ '-' ∧
      Nat.digitChar n ≠ '+' ∧ Nat.digitChar n ≠ '_' := by
  interval_cases n <;> decide

theorem mem_decDigits_props : ∀ (fuel n : Nat), ∀ c ∈ decDigits fuel n,
    c.isWhitespace = false ∧ c ≠ '-' ∧ c ≠ '+' ∧ c ≠ '_' := by
  intro fuel
  induction fuel with
  | zero => intro n c hc; simp [decDigits] at hc
  | succ f ih =>
    intro n c hc
    by_cases h : n < 10
    · simp [decDigits, h] at hc
      subst hc; exact digitChar_props h
    · simp [decDigits, h] at hc
      rcases hc with hc | hc
      · exact ih _ _ hc
      · subst hc; exact digitChar_props (Nat.mod_lt _ (by omega))

theorem natReprChars_props {n : Nat} : ∀ c ∈ natReprChars n,
    c.isWhitespace = false ∧ c ≠ '-' ∧ c ≠ '+' ∧ c ≠ '_' :=
  fun c hc => mem_decDigits_props (n + 1) n c hc

theorem dropWhile_eq_self_of_forall {p : Char → Bool} {l : List Char}
    (h : ∀ c ∈ l, p c = false) : l.dropWhile p = l := by
  cases l with
  | nil => rfl
  | cons c cs => simp [List.dropWhile_cons, h c (by simp)]

theorem strip_eq_self_of_no_whitespace {l : List Char}
    (h : ∀ c ∈ l, c.isWhitespace = false) :
    ((l.dropWhile Char.isWhitespace).reverse.dropWhile Char.isWhitespace).reverse = l := by
  rw [dropWhile_eq_self_of_forall h,
      dropWhile_eq_self_of_forall (fun c hc => h c (List.mem_reverse.mp hc)),
      List.reverse_reverse]

theorem natReprChars_isDigit {n : Nat} : ∀ c ∈ natReprChars n, c.isDigit = true :=
  fun c hc => mem_decDigits_isDigit (n + 1) n c hc

theorem pyIntOfChars_natReprChars (n : Nat) :
    pyIntOfChars (natReprChars n) = some (n : Int) := by
  have hws : ∀ c ∈ natReprChars n, c.isWhitespace = false :=
    fun c hc => (natReprChars_props c hc).1
  unfold pyIntOfChars
  rw [strip_eq_self_of_no_whitespace hws]
  match hl : natReprChars n with
  | [] => exact absurd hl (decDigits_ne_nil (by omega))
  | c :: cs =>
    have hspec := natReprChars_props c (by rw [hl]; simp)
    have hp : parseDigits (natReprChars n) = some n := parseDigits_natReprChars n
    rw [hl] at hp
    simp [hspec.2.1, hspec.2.2.1, hp]

theorem pyIntOfChars_intReprChars (i : Int) :
    pyIntOfChars (intReprChars i) = some i := by
  by_cases hneg : i < 0
  · have hws : ∀ c ∈ '-' :: natReprChars i.natAbs, c.isWhitespace = false := by
      intro c hc
      rcases List.mem_cons.mp hc with hc | hc
      · subst hc; decide
      · exact (natReprChars_props c hc).1
    unfold intReprChars
    rw [if_pos hneg]
    unfold pyIntOfChars
    rw [strip_eq_self_of_no_whitespace hws]
    simp [parseDigits_natReprChars, abs_of_nonpos (le_of_lt hneg)]
  · unfold intReprChars
    rw [if_neg hneg, pyIntOfChars_natReprChars]
    rw [Int.toNat_of_nonneg (not_lt.mp hneg)]

theorem splitChars_ne_nil (l : List Char) : splitChars l ≠ [] := by
  cases l with
  | nil => simp [splitChars]
  | cons c cs =>
    by_cases h : c = '_'
    · simp [splitChars, h]
    · simp [splitChars, h]

theorem splitChars_no_sep {l : List Char} (h : '_' ∉ l) : splitChars l = [l] := by
  induction l with
  | nil => rfl
  | cons c cs ih =>
    have hc : c ≠ '_' := fun he => h (he ▸ List.mem_cons_self c cs)
    have hcs : '_' ∉ cs := fun hm => h (List.mem_cons_of_mem c hm)
    simp [splitChars, hc, ih hcs]

theorem splitChars_sep_append {xs : List Char} (rest : List Char) (h : '_' ∉ xs) :
    splitChars (xs ++ '_' :: rest) = xs :: splitChars rest := by
  induction xs with
  | nil => simp [splitChars]
  | cons c cs ih =>
    have hc : c ≠ '_' := fun he => h (he ▸ List.mem_cons_self c cs)
    have hcs : '_' ∉ cs := fun hm => h (List.mem_cons_of_mem c hm)
    simp [splitChars, hc, ih hcs]

theorem splitChars_three {xs ys zs : List Char}
    (hx : '_' ∉ xs) (hy : '_' ∉ ys) (hz : '_' ∉ zs) :
    splitChars (xs ++ '_' :: (ys ++ '_' :: zs)) = [xs, ys, zs] := by
  rw [splitChars_sep_append _ hx, splitChars_sep_append _ hy, splitChars_no_sep hz]

theorem intReprChars_no_underscore (i : Int) : '_' ∉ intReprChars i := by
  unfold intReprChars
  by_cases hneg : i < 0
  · rw [if_pos hneg]
    intro hm
    rcases List.mem_cons.mp hm with hm | hm
    · exact absurd hm (by decide)
    · exact absurd rfl (natReprChars_props _ hm).2.2.2
  · rw [if_neg hneg]
    intro hm
    exact absurd rfl (natReprChars_props _ hm).2.2.2

/-! ### Basic lemmas about the derandomized primitives -/

theorem randint_bounds {lo hi : Int} (h : lo ≤ hi) (r : Nat) :
    lo ≤ randint lo hi r ∧ randint lo hi r ≤ hi := by
  unfold randint
  have hpos : (0 : Int) < hi - lo + 1 := by omega
  have h1 : 0 ≤ (r : Int) % (hi - lo + 1) := Int.emod_nonneg _ (by omega)
  have h2 : (r : Int) % (hi - lo + 1) < hi - lo + 1 := Int.emod_lt_of_pos _ hpos
  omega

theorem pychoice_mem {α : Type} {l : List α} (d : α) (r : Nat) (h : l ≠ []) :
    pychoice l d r ∈ l := by
  unfold pychoice
  have hlen : r % l.length < l.length := Nat.mod_lt _ (List.length_pos.mpr h)
  rw [List.getD_eq_getElem?_getD, List.getElem?_eq_getElem hlen]
  exact List.getElem_mem hlen

/-! ### Reconstruction of generated identifiers -/

theorem op_map_value (op : Operation) : op_map (Operation.value op).data = some op := by
  cases op <;> rfl

theorem value_no_underscore (op : Operation) : '_' ∉ (Operation.value op).data := by
  cases op <;> decide

/-- Reconstructing the identifier `"{op}_{a}_{b}"` always succeeds and
yields exactly the question record with operands a, b and the recomputed
answer. -/
theorem reconstruct_gen_id (op : Operation) (a b : Int) :
    _reconstruct_question (generate_question_id op a b) =
      some (mkQuestion op a b (reconAnswer op a b)) := by
  have hdata : (generate_question_id op a b).data =
      (Operation.value op).data ++ '_' :: (intReprChars a ++ '_' :: intReprChars b) := by
    simp [generate_question_id]
  unfold _reconstruct_question
  rw [hdata, splitChars_three (value_no_underscore op) (intReprChars_no_underscore a)
    (intReprChars_no_underscore b)]
  simp only [pyIntOfChars_intReprChars, op_map_value]
  rfl

theorem reconstruct_mkQuestion (op : Operation) (a b ans : Int)
    (hans : ans = reconAnswer op a b) :
    _reconstruct_question (mkQuestion op a b ans).question_id =
      some (mkQuestion op a b ans) := by
  subst hans
  exact reconstruct_gen_id op a b

theorem config_props : ∀ {grade : Int} {config : DifficultyConfig},
    GRADE_CONFIGS grade = some config →
    config.operations ≠ [] ∧
      pyOr config.multiplication_tables [1, 2, 3, 4, 5, 6, 7, 8, 9, 10] ≠ [] ∧
      ∀ x ∈ pyOr config.multiplication_tables [1, 2, 3, 4, 5, 6, 7, 8, 9, 10], 0 < x := by
  intro grade config h
  unfold GRADE_CONFIGS at h
  split_ifs at h
  all_goals (injection h with h; subst h; exact ⟨by decide, by decide, by decide⟩)

/-- Every question produced by any generator at a valid configuration
reconstructs to itself. -/
theorem generators_roundtrip : ∀ {grade : Int} {config : DifficultyConfig},
    GRADE_CONFIGS grade = some config →
    ∀ (op : Operation) (t : RandTape),
      _reconstruct_question (_OPERATION_GENERATORS op config t).question_id =
        some (_OPERATION_GENERATORS op config t) := by
  intro grade config hg op t
  have hprops := config_props hg
  cases op with
  | addition => exact reconstruct_mkQuestion .addition _ _ _ rfl
  | subtraction => exact reconstruct_mkQuestion .subtraction _ _ _ rfl
  | multiplication => exact reconstruct_mkQuestion .multiplication _ _ _ rfl
  | division =>
    have hdpos : 0 < pychoice (pyOr config.multiplication_tables
        [1, 2, 3, 4, 5, 6, 7, 8, 9, 10]) 0 t.r1 :=
      hprops.2.2 _ (pychoice_mem 0 t.r1 hprops.2.1)
    show _reconstruct_question (_generate_division config t.r1 t.r2).question_id =
      some (_generate_division config t.r1 t.r2)
    unfold _generate_division
    refine reconstruct_mkQuestion .division _ _ _ ?_
    unfold reconAnswer
    rw [if_pos (by omega : pychoice (pyOr config.multiplication_tables
        [1, 2, 3, 4, 5, 6, 7, 8, 9, 10]) 0 t.r1 ≠ 0)]
    rw [Int.mul_fdiv_cancel_left _ (by omega)]

/-! ### Claim C1: generate/reconstruct round trip -/

/-- C1: for every fact q produced by generate_question at any supported
grade (with any or no forced operation), _reconstruct_question applied to
q.question_id returns a non-null fact equal to q — in particular with the
same identifier, operand1, operand2, operation, and correct result. -/
theorem C1_generate_reconstruct_roundtrip (grade : Int) (operation : Option Operation)
    (t : RandTape) (q : MathQuestion) (h : generate_question grade operation t = .ok q) :
    _reconstruct_question q.question_id = some q := by
  unfold generate_question at h
  cases hg : GRADE_CONFIGS grade with
  | none => rw [hg] at h; cases h
  | some config =>
    rw [hg] at h
    cases operation with
    | none =>
      have h2 : (Except.ok
          (_OPERATION_GENERATORS (pychoice config.operations .addition t.rop) config t) :
            Except String MathQuestion) = Except.ok q := h
      injection h2 with h2
      subst h2
      exact generators_roundtrip hg _ t
    | some op =>
      have h2 : (if op ∈ config.operations then
            (Except.ok (_OPERATION_GENERATORS op config t) : Except String MathQuestion)
          else Except.error ("Operation is not available for grade")) = Except.ok q := h
      by_cases hmem : op ∈ config.operations
      · rw [if_pos hmem] at h2
        injection h2 with h2
        subst h2
        exact generators_roundtrip hg op t
      · rw [if_neg hmem] at h2; cases h2

/-- Witness for C1 at the concrete input grade 1, no forced operation,
tape (0, 0, 0, 0): the generated fact is add_1_1 and it reconstructs to
itself. -/
theorem C1_witness :
    generate_question 1 none ⟨0, 0, 0, 0⟩ = .ok (_generate_addition ⟨1, [.addition], (1, 10), none⟩ 0 0) ∧
    _reconstruct_question (_generate_addition ⟨1, [.addition], (1, 10), none⟩ 0 0).question_id =
      some (_generate_addition ⟨1, [.addition], (1, 10), none⟩ 0 0) :=
  ⟨rfl, C1_generate_reconstruct_roundtrip 1 none ⟨0, 0, 0, 0⟩ _ rfl⟩

/-! ### Claim C2: addition range law (violated at grade 1) -/

/-- C2: evaluation at the failing input. Grade 1 has number range [1, 10],
yet the addition generator (tape draws r1 = 9, r2 = 0) produces
operand1 = 10 and operand2 = 1 with result 11 > 10: the
max(min, max - operand1) clamp breaks the sum-never-exceeds-max
guarantee whenever min > 0 and operand1 > max - min. -/
theorem C2_grade1_addition_exceeds_range_max :
    generate_question 1 (some .addition) ⟨0, 9, 0, 0⟩ =
      .ok (_generate_addition ⟨1, [.addition], (1, 10), none⟩ 9 0) ∧
    (_generate_addition ⟨1, [.addition], (1, 10), none⟩ 9 0).operand1 = 10 ∧
    (_generate_addition ⟨1, [.addition], (1, 10), none⟩ 9 0).operand2 = 1 ∧
    (_generate_addition ⟨1, [.addition], (1, 10), none⟩ 9 0).correct_answer = 11 ∧
    (GRADE_CONFIGS 1).map (fun c => c.number_range) = some (1, 10) :=
  ⟨rfl, rfl, rfl, rfl, rfl⟩

/-! ### Claim C3: the retry loop of _generate_new_question -/

theorem generate_question_ok {grade : Int} {config : DifficultyConfig}
    (hg : GRADE_CONFIGS grade = some config) (t : RandTape) :
    generate_question grade none t =
      .ok (_OPERATION_GENERATORS (pychoice config.operations .addition t.rop) config t) := by
  unfold generate_question
  rw [hg]

/-- The loop invariant of genNewAux: it always returns the first accepted
candidate, or the candidate of one extra unconditional call after the
whole fuel is spent. -/
theorem genNewAux_spec (s : SpacedRepetition) (tape : Nat → RandTape)
    {config : DifficultyConfig} (hg : GRADE_CONFIGS s._grade = some config) :
    ∀ (fuel i0 : Nat),
      ∃ k q, k ≤ fuel ∧ generate_question s._grade none (tape (i0 + k)) = .ok q ∧
        genNewAux s tape fuel i0 = .ok q ∧
        (k < fuel → acceptsNew s q) ∧
        (∀ j < k, ∃ qj, generate_question s._grade none (tape (i0 + j)) = .ok qj ∧
          ¬ acceptsNew s qj) := by
  intro fuel
  induction fuel with
  | zero =>
    intro i0
    refine ⟨0, _, le_refl 0, generate_question_ok hg (tape i0), ?_, ?_, ?_⟩
    · show genNewAux s tape 0 i0 = _
      exact generate_question_ok hg (tape (i0 + 0))
    · intro h; omega
    · intro j hj; omega
  | succ f ih =>
    intro i0
    have hq0 := generate_question_ok hg (tape i0)
    set q0 := _OPERATION_GENERATORS (pychoice config.operations .addition (tape i0).rop)
      config (tape i0) with hq0def
    have hstep : genNewAux s tape (f + 1) i0 =
        if q0.question_id ∈ s._recent_questions then genNewAux s tape f (i0 + 1)
        else
          match statsGet? s._stats q0.question_id with
          | none => .ok q0
          | some stats =>
            if 3 ≤ stats.box then .ok q0 else genNewAux s tape f (i0 + 1) := by
      show (match generate_question s._grade none (tape i0) with
        | .error e => Except.error e
        | .ok question =>
          if question.question_id ∈ s._recent_questions then genNewAux s tape f (i0 + 1)
          else
            match statsGet? s._stats question.question_id with
            | none => Except.ok question
            | some stats =>
              if 3 ≤ stats.box then Except.ok question
              else genNewAux s tape f (i0 + 1)) = _
      rw [hq0]
    by_cases hrec : q0.question_id ∈ s._recent_questions
    · rw [if_pos hrec] at hstep
      obtain ⟨k, q, hk, hgen, hres, hacc, hrej⟩ := ih (i0 + 1)
      refine ⟨k + 1, q, by omega, ?_, hstep.trans hres, fun h => hacc (by omega), ?_⟩
      · rw [show i0 + (k + 1) = i0 + 1 + k by omega]; exact hgen
      · intro j hj
        match j with
        | 0 => exact ⟨q0, hq0, fun ha => ha.1 hrec⟩
        | j + 1 =>
          obtain ⟨qj, h1, h2⟩ := hrej j (by omega)
          exact ⟨qj, by rw [show i0 + (j + 1) = i0 + 1 + j by omega]; exact h1, h2⟩
    · rw [if_neg hrec] at hstep
      cases hst : statsGet? s._stats q0.question_id with
      | none =>
        rw [hst] at hstep
        replace hstep : genNewAux s tape (f + 1) i0 = Except.ok q0 := hstep
        exact ⟨0, q0, by omega, hq0, hstep, fun _ => ⟨hrec, Or.inl hst⟩, fun j hj => by omega⟩
      | some stats =>
        rw [hst] at hstep
        replace hstep : genNewAux s tape (f + 1) i0 =
          if 3 ≤ stats.box then Except.ok q0 else genNewAux s tape f (i0 + 1) := hstep
        by_cases hbox : 3 ≤ stats.box
        · rw [if_pos hbox] at hstep
          exact ⟨0, q0, by omega, hq0, hstep, fun _ => ⟨hrec, Or.inr ⟨stats, hst, hbox⟩⟩,
            fun j hj => by omega⟩
        · rw [if_neg hbox] at hstep
          obtain ⟨k, q, hk, hgen, hres, hacc, hrej⟩ := ih (i0 + 1)
          refine ⟨k + 1, q, by omega, ?_, hstep.trans hres, fun h => hacc (by omega), ?_⟩
          · rw [show i0 + (k + 1) = i0 + 1 + k by omega]; exact hgen
          · intro j hj
            match j with
            | 0 =>
              refine ⟨q0, hq0, fun ha => ?_⟩
              rcases ha.2 with h | ⟨st, hsteq, hb⟩
              · rw [hst] at h; cases h
              · rw [hst] at hsteq; injection hsteq with he; subst he; exact hbox hb
            | j + 1 =>
              obtain ⟨qj, h1, h2⟩ := hrej j (by omega)
              exact ⟨qj, by rw [show i0 + (j + 1) = i0 + 1 + j by omega]; exact h1, h2⟩

/-- C3 (amended): at a supported grade, _generate_new_question never
fails or stalls; it makes at most 20 filtered generation attempts,
accepting the first candidate that is not in the recency list and is
unseen or in box ≥ 3; if all 20 attempts fail it makes one extra
(21st) generator call and accepts that fresh fact unconditionally —
rather than accepting the 20th candidate itself. -/
theorem C3_generate_new_question_spec (s : SpacedRepetition) (tape : Nat → RandTape)
    {config : DifficultyConfig} (hg : GRADE_CONFIGS s._grade = some config) :
    ∃ k q, k ≤ 20 ∧ generate_question s._grade none (tape k) = .ok q ∧
      _generate_new_question s tape = .ok q ∧
      (k < 20 → acceptsNew s q) ∧
      (∀ j < k, ∃ qj, generate_question s._grade none (tape j) = .ok qj ∧
        ¬ acceptsNew s qj) := by
  have h := genNewAux_spec s tape hg 20 0
  simpa using h

/-- Witness for C3 at a concrete input: on the state sC3state with tape
sC3tape the function returns a result (does not fail). -/
theorem C3_witness :
    (_generate_new_question sC3state sC3tape).isOk = true := by
  obtain ⟨k, q, hk, hgen, hres, hacc, hrej⟩ :=
    @C3_generate_new_question_spec sC3state sC3tape ⟨1, [.addition], (1, 10), none⟩ rfl
  rw [hres]
  rfl

/-- C3 counterexample to the claim as stated: on sC3state/sC3tape every
one of the 20 loop candidates is add_1_1 (already in the recency list, so
all attempts fail), yet the returned fact is the fresh 21st generation
add_2_1, not the last (20th) candidate add_1_1. -/
theorem C3_counterexample :
    (generate_question 1 none (sC3tape 19)).map (fun q => q.question_id) = .ok ("add_1_1") ∧
    ("add_1_1" ∈ sC3state._recent_questions) ∧
    (_generate_new_question sC3state sC3tape).map (fun q => q.question_id) = .ok ("add_2_1") ∧
    ("add_1_1" : String) ≠ "add_2_1" :=
  ⟨rfl, by decide, rfl, by decide⟩

/-! ### Claim C4: box transition law of record_answer -/

theorem statsGet?_statsSet_self (l : List (String × QuestionStats)) (k : String)
    (v : QuestionStats) : statsGet? (statsSet l k v) k = some v := by
  induction l with
  | nil => simp [statsSet, statsGet?]
  | cons p rest ih =>
    obtain ⟨k1, v1⟩ := p
    by_cases h : k1 = k
    · simp [statsSet, h, statsGet?]
    · simp [statsSet, h, statsGet?, ih]

/-- C4: record_answer on an existing record in box B increments
correct_count and moves to box min(5, B+1) on a correct answer, or
increments incorrect_count and resets to box 1 on an incorrect answer
(stamping last_asked); on an unseen identifier a record is lazily created
at box 1 first, so a first correct answer yields exactly
correct_count = 1, incorrect_count = 0, box = 2. -/
theorem C4_record_answer_box_law (s : SpacedRepetition) (qid : String) (now : Nat) :
    (∀ st, statsGet? s._stats qid = some st →
      statsGet? (record_answer s qid true now)._stats qid =
        some { st with correct_count := st.correct_count + 1,
                       box := min 5 (st.box + 1), last_asked := some now } ∧
      statsGet? (record_answer s qid false now)._stats qid =
        some { st with incorrect_count := st.incorrect_count + 1,
                       box := 1, last_asked := some now }) ∧
    (statsGet? s._stats qid = none →
      statsGet? (record_answer s qid true now)._stats qid =
        some { question_id := qid, correct_count := 1, incorrect_count := 0,
               last_asked := some now, box := 2 }) := by
  constructor
  · intro st hst
    constructor
    · show statsGet? (statsSet s._stats qid _) qid = _
      rw [statsGet?_statsSet_self, hst]
      rfl
    · show statsGet? (statsSet s._stats qid _) qid = _
      rw [statsGet?_statsSet_self, hst]
      rfl
  · intro hst
    show statsGet? (statsSet s._stats qid _) qid = _
    rw [statsGet?_statsSet_self, hst]
    rfl

/-- Witness for C4: the concrete div_24_6 scenario of the spec — a first
correct answer on a fresh map yields (1, 0, box 2), a subsequent incorrect
answer yields (1, 1, box 1). -/
theorem C4_witness :
    statsGet? (record_answer (SpacedRepetition.init [] 1) ("div_24_6") true 0)._stats
        ("div_24_6") =
      some { question_id := "div_24_6", correct_count := 1, incorrect_count := 0,
             last_asked := some 0, box := 2 } ∧
    statsGet? (record_answer (record_answer (SpacedRepetition.init [] 1) ("div_24_6") true 0)
        ("div_24_6") false 1)._stats ("div_24_6") =
      some { question_id := "div_24_6", correct_count := 1, incorrect_count := 1,
             last_asked := some 1, box := 1 } := by
  constructor
  · exact (C4_record_answer_box_law (SpacedRepetition.init [] 1) ("div_24_6") 0).2 rfl
  · exact ((C4_record_answer_box_law
      (record_answer (SpacedRepetition.init [] 1) ("div_24_6") true 0) ("div_24_6") 1).1
      { question_id := "div_24_6", correct_count := 1, incorrect_count := 0,
        last_asked := some 0, box := 2 } rfl).2

/-! ### Claim C5: reconstruction degrades gracefully -/

/-- C5: _reconstruct_question is total (modelled as an Option-valued
function, mirroring the try/except of the source); it returns none when
the identifier does not split into exactly 3 underscore fields, when the
operation code is unknown, or when an operand field does not parse as an
integer; and a division identifier with a zero divisor yields the defined
fallback answer 0 instead of a division fault. -/
theorem C5_reconstruct_graceful :
    (∀ s : String, (splitChars s.data).length ≠ 3 → _reconstruct_question s = none) ∧
    (∀ (s : String) (p0 p1 p2 : List Char), splitChars s.data = [p0, p1, p2] →
      op_map p0 = none → _reconstruct_question s = none) ∧
    (∀ (s : String) (p0 p1 p2 : List Char), splitChars s.data = [p0, p1, p2] →
      (pyIntOfChars p1 = none ∨ pyIntOfChars p2 = none) → _reconstruct_question s = none) ∧
    (∀ a : Int, _reconstruct_question (generate_question_id .division a 0) =
      some (mkQuestion .division a 0 0)) := by
  refine ⟨?_, ?_, ?_, ?_⟩
  · intro s hlen
    unfold _reconstruct_question
    rcases hl : splitChars s.data with _ | ⟨p0, _ | ⟨p1, _ | ⟨p2, _ | ⟨p3, rest⟩⟩⟩⟩
    · rfl
    · rfl
    · rfl
    · rw [hl] at hlen; simp at hlen
    · rfl
  · intro s p0 p1 p2 hl hop
    unfold _reconstruct_question
    rw [hl]
    cases h1 : pyIntOfChars p1 with
    | none => simp [h1]
    | some o1 =>
      cases h2 : pyIntOfChars p2 with
      | none => simp [h1, h2]
      | some o2 => simp [h1, h2, hop]
  · intro s p0 p1 p2 hl hparse
    unfold _reconstruct_question
    rw [hl]
    rcases hparse with h | h
    · simp [h]
    · cases h1 : pyIntOfChars p1 with
      | none => simp [h1]
      | some o1 => simp [h1, h]
  · intro a
    exact reconstruct_gen_id .division a 0

/-- Witness for C5 at concrete inputs: a 1-field identifier, an unknown
operation code, a non-numeric operand, and a zero-divisor division
identifier. -/
theorem C5_witness :
    _reconstruct_question ("abc") = none ∧
    _reconstruct_question ("foo_1_2") = none ∧
    _reconstruct_question ("add_x_2") = none ∧
    _reconstruct_question (generate_question_id .division 7 0) =
      some (mkQuestion .division 7 0 0) := by
  refine ⟨?_, ?_, ?_, C5_reconstruct_graceful.2.2.2 7⟩
  · exact C5_reconstruct_graceful.1 ("abc") (by decide)
  · exact C5_reconstruct_graceful.2.1 ("foo_1_2") ("foo").data ("1").data ("2").data
      (by decide) (by decide)
  · exact C5_reconstruct_graceful.2.2.1 ("add_x_2") ("add").data ("x").data ("2").data
      (by decide) (Or.inl (by decide))

/-! ### Claim C6: generated division facts -/

/-- C6: at a grade whose configuration allows division, every generated
division fact has a divisor operand2 drawn from the table set of the grade
(default [1..10] when unset), a non-zero divisor, a quotient result in
[1, 10], dividend = divisor * quotient (so operand1 mod operand2 = 0), and
correct_answer equal to the integer quotient operand1 / operand2. -/
theorem C6_division_facts {grade : Int} {config : DifficultyConfig}
    (hg : GRADE_CONFIGS grade = some config)
    (_hdiv : Operation.division ∈ config.operations) (r1 r2 : Nat) :
    (_generate_division config r1 r2).operand2 ∈
        pyOr config.multiplication_tables [1, 2, 3, 4, 5, 6, 7, 8, 9, 10] ∧
    (_generate_division config r1 r2).operand2 ≠ 0 ∧
    (1 ≤ (_generate_division config r1 r2).correct_answer ∧
      (_generate_division config r1 r2).correct_answer ≤ 10) ∧
    (_generate_division config r1 r2).operand1 =
      (_generate_division config r1 r2).operand2 *
        (_generate_division config r1 r2).correct_answer ∧
    (_generate_division config r1 r2).operand1 %
      (_generate_division config r1 r2).operand2 = 0 ∧
    (_generate_division config r1 r2).correct_answer =
      Int.fdiv (_generate_division config r1 r2).operand1
        (_generate_division config r1 r2).operand2 := by
  have hmem := pychoice_mem 0 r1 (config_props hg).2.1
  have hpos := (config_props hg).2.2 _ hmem
  have hqb := randint_bounds (by omega : (1 : Int) ≤ 10) r2
  have e1 : (_generate_division config r1 r2).operand1 =
      pychoice (pyOr config.multiplication_tables [1, 2, 3, 4, 5, 6, 7, 8, 9, 10]) 0 r1 *
        randint 1 10 r2 := rfl
  have e2 : (_generate_division config r1 r2).operand2 =
      pychoice (pyOr config.multiplication_tables [1, 2, 3, 4, 5, 6, 7, 8, 9, 10]) 0 r1 := rfl
  have e3 : (_generate_division config r1 r2).correct_answer = randint 1 10 r2 := rfl
  refine ⟨e2 ▸ hmem, by omega, ⟨by omega, by omega⟩, rfl, ?_, ?_⟩
  · rw [e1, e2]
    exact Int.mul_emod_right _ _
  · rw [e3, e1, e2, Int.mul_fdiv_cancel_left _ (by omega)]

/-- Witness for C6 at grade 3, tape draws r1 = 3, r2 = 4: divisor 4,
quotient 5, dividend 20. -/
theorem C6_witness :
    (_generate_division ⟨3, [.addition, .subtraction, .multiplication, .division],
        (0, 100), some [1, 2, 3, 4, 5, 6, 7, 8, 9, 10]⟩ 3 4).operand1 = 20 ∧
    (_generate_division ⟨3, [.addition, .subtraction, .multiplication, .division],
        (0, 100), some [1, 2, 3, 4, 5, 6, 7, 8, 9, 10]⟩ 3 4).operand2 = 4 ∧
    (_generate_division ⟨3, [.addition, .subtraction, .multiplication, .division],
        (0, 100), some [1, 2, 3, 4, 5, 6, 7, 8, 9, 10]⟩ 3 4).correct_answer = 5 ∧
    (_generate_division ⟨3, [.addition, .subtraction, .multiplication, .division],
        (0, 100), some [1, 2, 3, 4, 5, 6, 7, 8, 9, 10]⟩ 3 4).operand2 ≠ 0 ∧
    (_generate_division ⟨3, [.addition, .subtraction, .multiplication, .division],
        (0, 100), some [1, 2, 3, 4, 5, 6, 7, 8, 9, 10]⟩ 3 4).operand1 %
      (_generate_division ⟨3, [.addition, .subtraction, .multiplication, .division],
        (0, 100), some [1, 2, 3, 4, 5, 6, 7, 8, 9, 10]⟩ 3 4).operand2 = 0 := by
  have h := @C6_division_facts 3
    ⟨3, [.addition, .subtraction, .multiplication, .division],
      (0, 100), some [1, 2, 3, 4, 5, 6, 7, 8, 9, 10]⟩ rfl (by decide) 3 4
  exact ⟨rfl, rfl, rfl, h.2.1, h.2.2.2.2.1⟩

/-! ### Claim C7: generate_question input validation -/

/-- C7: generate_question fails (raises, modelled as Except.error) exactly
when the grade has no configuration — which happens exactly when the grade
is outside 1..4 — or when an explicitly supplied operation is not in the
legal operation set of the grade; a valid grade with an omitted operation never
fails. Invalid inputs are never coerced into a fact. -/
theorem C7_generate_question_validation (grade : Int) (operation : Option Operation)
    (t : RandTape) :
    ((∃ e, generate_question grade operation t = .error e) ↔
      (GRADE_CONFIGS grade = none ∨
        ∃ o config, operation = some o ∧ GRADE_CONFIGS grade = some config ∧
          o ∉ config.operations)) ∧
    (GRADE_CONFIGS grade = none ↔ ¬(1 ≤ grade ∧ grade ≤ 4)) ∧
    (∀ config, GRADE_CONFIGS grade = some config → operation = none →
      ∃ q, generate_question grade operation t = .ok q) := by
  refine ⟨?_, ?_, ?_⟩
  · cases hg : GRADE_CONFIGS grade with
    | none =>
      have hred : generate_question grade operation t = .error ("Unsupported grade") := by
        unfold generate_question; rw [hg]
      simp [hred, hg]
    | some config =>
      cases operation with
      | none =>
        have hred := generate_question_ok hg t
        simp [hred, hg]
      | some op =>
        have hred : generate_question grade (some op) t =
            (if op ∈ config.operations then
              (Except.ok (_OPERATION_GENERATORS op config t) : Except String MathQuestion)
            else Except.error ("Operation is not available for grade")) := by
          unfold generate_question; rw [hg]
        by_cases hmem : op ∈ config.operations
        · rw [if_pos hmem] at hred
          constructor
          · rintro ⟨e, he⟩; rw [hred] at he; cases he
          · rintro (h | ⟨o, config1, ho, hc, hnot⟩)
            · cases h
            · injection ho with ho
              subst ho
              injection hc with hc
              subst hc
              exact absurd hmem hnot
        · rw [if_neg hmem] at hred
          constructor
          · intro _; exact Or.inr ⟨op, config, rfl, rfl, hmem⟩
          · intro _; exact ⟨_, hred⟩
  · unfold GRADE_CONFIGS
    split_ifs with h1 h2 h3 h4 <;> simp <;> omega
  · intro config hgc hop
    subst hop
    unfold generate_question
    rw [hgc]
    exact ⟨_, rfl⟩

/-- Witness for C7: grade 1 with no operation succeeds; grade 5 fails;
multiplication at grade 1 fails. -/
theorem C7_witness :
    exceptIsOk (generate_question 1 none ⟨0, 0, 0, 0⟩) = true ∧
    exceptIsOk (generate_question 5 none ⟨0, 0, 0, 0⟩) = false ∧
    exceptIsOk (generate_question 1 (some .multiplication) ⟨0, 0, 0, 0⟩) = false := by
  refine ⟨?_, ?_, ?_⟩
  · obtain ⟨q, hq⟩ := (C7_generate_question_validation 1 none ⟨0, 0, 0, 0⟩).2.2
      ⟨1, [.addition], (1, 10), none⟩ rfl rfl
    rw [hq]; rfl
  · obtain ⟨e, he⟩ := (C7_generate_question_validation 5 none ⟨0, 0, 0, 0⟩).1.mpr
      (Or.inl ((C7_generate_question_validation 5 none ⟨0, 0, 0, 0⟩).2.1.mpr (by omega)))
    rw [he]; rfl
  · obtain ⟨e, he⟩ := (C7_generate_question_validation 1
      (some .multiplication) ⟨0, 0, 0, 0⟩).1.mpr
      (Or.inr ⟨.multiplication, ⟨1, [.addition], (1, 10), none⟩, rfl, rfl, by decide⟩)
    rw [he]; rfl

/-! ### Claim C9: bounded FIFO recency list -/

theorem lastN_length {α : Type} (n : Nat) (l : List α) :
    (lastN n l).length = min n l.length := by
  simp [lastN]
  omega

theorem recent_step (q : String) {r hist : List String}
    (hlen : r.length ≤ 5) (hr : r = lastN 5 hist) :
    (if 5 < (r ++ [q]).length then (r ++ [q]).drop 1 else r ++ [q]) =
        lastN 5 (hist ++ [q]) ∧
    (if 5 < (r ++ [q]).length then (r ++ [q]).drop 1 else r ++ [q]).length ≤ 5 := by
  have hrl : r.length = min 5 hist.length := by rw [hr, lastN_length]
  have hq1 : (r ++ [q]).length = r.length + 1 := by simp
  have hq2 : (hist ++ [q]).length = hist.length + 1 := by simp
  by_cases hcase : 5 < (r ++ [q]).length
  · have h5 : r.length = 5 := by omega
    have hh5 : 5 ≤ hist.length := by omega
    rw [if_pos hcase]
    refine ⟨?_, by simp; omega⟩
    rw [List.drop_append_of_le_length (by omega), hr]
    unfold lastN
    rw [List.drop_drop, List.drop_append_of_le_length (by omega)]
    congr 2
    omega
  · have h4 : r.length ≤ 4 := by omega
    have hh4 : hist.length ≤ 4 := by omega
    have hhist : lastN 5 hist = hist := by
      unfold lastN
      rw [show hist.length - 5 = 0 by omega, List.drop_zero]
    rw [if_neg hcase]
    refine ⟨?_, by simp; omega⟩
    rw [hr, hhist]
    unfold lastN
    rw [show (hist ++ [q]).length - 5 = 0 by omega, List.drop_zero]

theorem runAnswers_recent (calls : List (String × Bool)) :
    ∀ (s : SpacedRepetition) (hist : List String) (now : Nat),
      s._max_recent = 5 → s._recent_questions = lastN 5 hist →
      s._recent_questions.length ≤ 5 →
      (runAnswers s calls now)._recent_questions =
          lastN 5 (hist ++ calls.map Prod.fst) ∧
      (runAnswers s calls now)._recent_questions.length ≤ 5 := by
  induction calls with
  | nil =>
    intro s hist now _ hr hlen
    constructor
    · simpa [runAnswers] using hr
    · simpa [runAnswers] using hlen
  | cons c rest ih =>
    intro s hist now hmax hr hlen
    have hstep := recent_step c.1 hlen hr
    have hrun : runAnswers s (c :: rest) now =
        runAnswers (record_answer s c.1 c.2 now) rest now := rfl
    have hmax2 : (record_answer s c.1 c.2 now)._max_recent = 5 := hmax
    have hrec : (record_answer s c.1 c.2 now)._recent_questions =
        (if 5 < (s._recent_questions ++ [c.1]).length
          then (s._recent_questions ++ [c.1]).drop 1
          else s._recent_questions ++ [c.1]) := by
      show (if s._max_recent < (s._recent_questions ++ [c.1]).length
        then (s._recent_questions ++ [c.1]).drop 1
        else s._recent_questions ++ [c.1]) = _
      rw [hmax]
    have h1 : (record_answer s c.1 c.2 now)._recent_questions =
        lastN 5 (hist ++ [c.1]) := by rw [hrec]; exact hstep.1
    have h2 : (record_answer s c.1 c.2 now)._recent_questions.length ≤ 5 := by
      rw [hrec]; exact hstep.2
    have := ih (record_answer s c.1 c.2 now) (hist ++ [c.1]) now hmax2 h1 h2
    rw [hrun]
    constructor
    · rw [this.1]
      congr 1
      simp
    · exact this.2

/-- C9: after any sequence of record_answer calls starting from a freshly
initialized scheduler, the recency list is exactly the suffix of the last
(at most) 5 recorded identifiers in recording order — so it never holds
more than 5 entries and eviction is oldest-first. -/
theorem C9_recency_fifo (calls : List (String × Bool))
    (stats0 : List (String × QuestionStats)) (grade : Int) (now : Nat) :
    (runAnswers (SpacedRepetition.init stats0 grade) calls now)._recent_questions =
        lastN 5 (calls.map Prod.fst) ∧
    (runAnswers (SpacedRepetition.init stats0 grade) calls now)._recent_questions.length
        ≤ 5 := by
  have h := runAnswers_recent calls (SpacedRepetition.init stats0 grade) [] now rfl rfl
    (by simp [SpacedRepetition.init])
  simpa using h

/-! ### Claim C10: reconstruction applies no grade or range validation -/

theorem config_range {grade : Int} {config : DifficultyConfig}
    (h : GRADE_CONFIGS grade = some config) :
    0 ≤ config.number_range.1 ∧ config.number_range.1 ≤ config.number_range.2 := by
  unfold GRADE_CONFIGS at h
  split_ifs at h
  all_goals (injection h with h; subst h; exact ⟨by decide, by decide⟩)

/-- C10: _reconstruct_question validates no grade, range, or sign: every
identifier of the shape op_int_int with a known code reconstructs to a
non-null fact — in particular sub_3_9 yields the negative result -6 even
though generated subtraction facts always have a non-negative result, and
the zero-divisor identifier div_5_0 yields result 0 rather than none. -/
theorem C10_reconstruct_no_validation :
    (∀ (op : Operation) (a b : Int),
      _reconstruct_question (generate_question_id op a b) =
        some (mkQuestion op a b (reconAnswer op a b))) ∧
    (_reconstruct_question ("sub_3_9")).map (fun q => q.correct_answer) = some (-6) ∧
    _reconstruct_question ("sub_3_9") ≠ none ∧
    (_reconstruct_question ("div_5_0")).map (fun q => q.correct_answer) = some 0 ∧
    _reconstruct_question ("div_5_0") ≠ none ∧
    (∀ (grade : Int) (config : DifficultyConfig) (r1 r2 : Nat),
      GRADE_CONFIGS grade = some config →
      0 ≤ (_generate_subtraction config r1 r2).correct_answer) := by
  refine ⟨reconstruct_gen_id, rfl, by decide, rfl, by decide, ?_⟩
  intro grade config r1 r2 hg
  have hr := config_range hg
  have h1 := randint_bounds hr.2 r1
  have h2 := randint_bounds h1.1 r2
  have e : (_generate_subtraction config r1 r2).correct_answer =
      randint config.number_range.1 config.number_range.2 r1 -
        randint config.number_range.1
          (randint config.number_range.1 config.number_range.2 r1) r2 := rfl
  omega

/-- Witness for C10: the out-of-range identifier sub_3_9 reconstructs to a
fact with result -6, while the grade-1 subtraction generator itself only
produces non-negative results. -/
theorem C10_witness :
    _reconstruct_question (generate_question_id .subtraction 3 9) =
      some (mkQuestion .subtraction 3 9 (-6)) ∧
    0 ≤ (_generate_subtraction ⟨1, [.addition], (1, 10), none⟩ 9 0).correct_answer := by
  constructor
  · exact C10_reconstruct_no_validation.1 .subtraction 3 9
  · exact C10_reconstruct_no_validation.2.2.2.2.2 1 ⟨1, [.addition], (1, 10), none⟩ 9 0 rfl

/-! ### Claim C8: weak/strong area threshold and sorting law -/

theorem mem_groupOps_aux (pred : QuestionStats → Bool) :
    ∀ (l : List (String × QuestionStats)) (ks : List String) (k : String),
      k ∈ l.foldl
        (fun ks p =>
          if pred p.2 then (if firstField p.1 ∈ ks then ks else ks ++ [firstField p.1])
          else ks) ks →
      k ∈ ks ∨ ∃ qid st, (qid, st) ∈ l ∧ pred st = true ∧ firstField qid = k := by
  intro l
  induction l with
  | nil => intro ks k h; exact Or.inl h
  | cons p rest ih =>
    intro ks k h
    simp only [List.foldl_cons] at h
    rcases ih _ k h with hks | ⟨qid, st, hmem, hp, hf⟩
    · by_cases hpred : pred p.2
      · rw [if_pos hpred] at hks
        by_cases hin : firstField p.1 ∈ ks
        · rw [if_pos hin] at hks; exact Or.inl hks
        · rw [if_neg hin] at hks
          rcases List.mem_append.mp hks with h1 | h1
          · exact Or.inl h1
          · right
            refine ⟨p.1, p.2, by simp, hpred, ?_⟩
            simp at h1
            exact h1.symm
      · rw [if_neg hpred] at hks; exact Or.inl hks
    · exact Or.inr ⟨qid, st, List.mem_cons_of_mem p hmem, hp, hf⟩

theorem mem_opAccuracy (pred : QuestionStats → Bool)
    (l : List (String × QuestionStats)) (p : String × ℚ) (h : p ∈ opAccuracy l pred) :
    ∃ qid st, (qid, st) ∈ l ∧ pred st = true ∧ firstField qid = p.1 := by
  unfold opAccuracy at h
  rcases List.mem_filterMap.mp h with ⟨k, hk, hf⟩
  have hkey : p.1 = k := by
    by_cases h0 : 0 < (opTotals l pred k).2
    · rw [if_pos h0] at hf; injection hf with hf; rw [← hf]
    · rw [if_neg h0] at hf; cases hf
  rw [hkey]
  have := mem_groupOps_aux pred l [] k hk
  rcases this with h1 | h1
  · cases h1
  · exact h1

theorem weak_le_trans : ∀ (a b c : String × ℚ),
    (fun a b : String × ℚ => decide (a.2 ≤ b.2)) a b →
    (fun a b : String × ℚ => decide (a.2 ≤ b.2)) b c →
    (fun a b : String × ℚ => decide (a.2 ≤ b.2)) a c := by
  intro a b c hab hbc
  simp only [decide_eq_true_eq] at *
  exact le_trans hab hbc

theorem weak_le_total : ∀ (a b : String × ℚ),
    ((fun a b : String × ℚ => decide (a.2 ≤ b.2)) a b ||
      (fun a b : String × ℚ => decide (a.2 ≤ b.2)) b a) = true := by
  intro a b
  simp only [Bool.or_eq_true, decide_eq_true_eq]
  exact le_total a.2 b.2

theorem strong_le_trans : ∀ (a b c : String × ℚ),
    (fun a b : String × ℚ => decide (b.2 ≤ a.2)) a b →
    (fun a b : String × ℚ => decide (b.2 ≤ a.2)) b c →
    (fun a b : String × ℚ => decide (b.2 ≤ a.2)) a c := by
  intro a b c hab hbc
  simp only [decide_eq_true_eq] at *
  exact le_trans hbc hab

theorem strong_le_total : ∀ (a b : String × ℚ),
    ((fun a b : String × ℚ => decide (b.2 ≤ a.2)) a b ||
      (fun a b : String × ℚ => decide (b.2 ≤ a.2)) b a) = true := by
  intro a b
  simp only [Bool.or_eq_true, decide_eq_true_eq]
  exact le_total b.2 a.2

/-- C8: weak_areas groups records with at least one attempt, keeps an
operation exactly when its aggregate accuracy is strictly below 7/10 (so
exactly 0.7 is excluded), and lists pairs in ascending accuracy order;
strong_areas groups records with at least 3 attempts, keeps an operation
exactly when its aggregate accuracy is at least 4/5 (so exactly 0.8 is
included), and lists pairs in descending accuracy order. -/
theorem C8_threshold_law (s : SpacedRepetition) :
    (∀ p : String × ℚ,
      p ∈ weakPairs s ↔
        p ∈ opAccuracy s._stats (fun st => st.total_attempts != 0) ∧ p.2 < 7 / 10) ∧
    (weakPairs s).Pairwise (fun a b => a.2 ≤ b.2) ∧
    get_weak_areas s = (weakPairs s).map (fun p => weakName p.1) ∧
    (∀ p ∈ opAccuracy s._stats (fun st => st.total_attempts != 0),
      ∃ qid st, (qid, st) ∈ s._stats ∧ 1 ≤ st.total_attempts ∧ firstField qid = p.1) ∧
    (∀ p : String × ℚ,
      p ∈ strongPairs s ↔
        p ∈ opAccuracy s._stats (fun st => 3 ≤ st.total_attempts) ∧ 4 / 5 ≤ p.2) ∧
    (strongPairs s).Pairwise (fun a b => b.2 ≤ a.2) ∧
    get_strong_areas s = (strongPairs s).map (fun p => strongName p.1) ∧
    (∀ p ∈ opAccuracy s._stats (fun st => 3 ≤ st.total_attempts),
      ∃ qid st, (qid, st) ∈ s._stats ∧ 3 ≤ st.total_attempts ∧ firstField qid = p.1) := by
  refine ⟨?_, ?_, rfl, ?_, ?_, ?_, rfl, ?_⟩
  · intro p
    unfold weakPairs
    rw [List.mem_filter, List.mem_mergeSort, decide_eq_true_eq]
  · unfold weakPairs
    have hs := List.sorted_mergeSort weak_le_trans weak_le_total
      (opAccuracy s._stats (fun st => st.total_attempts != 0))
    have hf : List.Pairwise (fun a b : String × ℚ => decide (a.2 ≤ b.2) = true)
        (((opAccuracy s._stats (fun st => st.total_attempts != 0)).mergeSort
          (fun a b => decide (a.2 ≤ b.2))).filter (fun p => decide (p.2 < 7 / 10))) :=
      List.Pairwise.sublist (List.filter_sublist _) hs
    exact hf.imp (fun h => of_decide_eq_true h)
  · intro p hp
    obtain ⟨qid, st, hmem, hpred, hf⟩ :=
      mem_opAccuracy (fun st => st.total_attempts != 0) s._stats p hp
    refine ⟨qid, st, hmem, ?_, hf⟩
    simp only [bne_iff_ne, ne_eq] at hpred
    omega
  · intro p
    unfold strongPairs
    rw [List.mem_filter, List.mem_mergeSort, decide_eq_true_eq]
  · unfold strongPairs
    have hs := List.sorted_mergeSort strong_le_trans strong_le_total
      (opAccuracy s._stats (fun st => 3 ≤ st.total_attempts))
    have hf : List.Pairwise (fun a b : String × ℚ => decide (b.2 ≤ a.2) = true)
        (((opAccuracy s._stats (fun st => 3 ≤ st.total_attempts)).mergeSort
          (fun a b => decide (b.2 ≤ a.2))).filter (fun p => decide (4 / 5 ≤ p.2))) :=
      List.Pairwise.sublist (List.filter_sublist _) hs
    exact hf.imp (fun h => of_decide_eq_true h)
  · intro p hp
    obtain ⟨qid, st, hmem, hpred, hf⟩ :=
      mem_opAccuracy (fun st => 3 ≤ st.total_attempts) s._stats p hp
    refine ⟨qid, st, hmem, ?_, hf⟩
    exact of_decide_eq_true hpred

/-- Witness for C8 on sC8state (addition at aggregate accuracy exactly
7/10, multiplication at exactly 4/5, each with at least 3 attempts): the
0.7 operation is excluded from the weak pairs, the 0.8 operation is
included in the strong pairs, the 0.7 one is not strong, and the
weak-area list is empty. -/
theorem C8_witness :
    (("add", ((7 : Nat) : ℚ) / ((10 : Nat) : ℚ)) ∉ weakPairs sC8state) ∧
    (("mul", ((4 : Nat) : ℚ) / ((5 : Nat) : ℚ)) ∈ strongPairs sC8state) ∧
    (("add", ((7 : Nat) : ℚ) / ((10 : Nat) : ℚ)) ∉ strongPairs sC8state) ∧
    get_weak_areas sC8state = [] := by
  have ew : opAccuracy sC8state._stats (fun st => st.total_attempts != 0) =
      [(("add" : String), ((7 : Nat) : ℚ) / ((10 : Nat) : ℚ)),
       (("mul" : String), ((4 : Nat) : ℚ) / ((5 : Nat) : ℚ))] := rfl
  have es : opAccuracy sC8state._stats (fun st => 3 ≤ st.total_attempts) =
      [(("add" : String), ((7 : Nat) : ℚ) / ((10 : Nat) : ℚ)),
       (("mul" : String), ((4 : Nat) : ℚ) / ((5 : Nat) : ℚ))] := rfl
  have h := C8_threshold_law sC8state
  refine ⟨?_, ?_, ?_, ?_⟩
  · intro hmem
    have h2 := (h.1 _).mp hmem
    have hnot : ¬ (((7 : Nat) : ℚ) / ((10 : Nat) : ℚ) < 7 / 10) := by norm_num
    exact hnot h2.2
  · exact (h.2.2.2.2.1 _).mpr ⟨by rw [es]; simp, by norm_num⟩
  · intro hmem
    have h2 := (h.2.2.2.2.1 _).mp hmem
    have hnot : ¬ ((4 : ℚ) / 5 ≤ ((7 : Nat) : ℚ) / ((10 : Nat) : ℚ)) := by norm_num
    exact hnot h2.2
  · have hwp : weakPairs sC8state = [] := by
      rw [List.eq_nil_iff_forall_not_mem]
      intro p hp
      have h2 := (h.1 p).mp hp
      rw [ew] at h2
      rcases h2 with ⟨hmem, hlt⟩
      simp only [List.mem_cons, List.mem_singleton, List.not_mem_nil, or_false] at hmem
      rcases hmem with h3 | h3 <;> (rw [h3] at hlt; norm_num at hlt)
    rw [h.2.2.1, hwp]
    rfl
